import Mathlib

/-!
Verification of the `mqtt-redis` persistence adapter (`src/lib.rs`).

A shallow embedding of the `RedisPersistence` struct and its
`mqtt::ClientPersistence` implementation, together with a model of the
Redis command surface it consumes (HSET/HGET/HDEL/HKEYS/DEL/HEXISTS).

The adapter state (`name`, `client`, `conn`) and every method body are
translated directly from `src/lib.rs`.  The Redis store itself is an
external collaborator (the `redis` crate), so its command semantics are
modelled from the specification: a store is a collection of named hashes,
each hash a finite map from field name to a byte string, and every command
issued over a connection can instead fail at the transport level.
-/

set_option autoImplicit false

namespace MqttRedis

/-- Opaque byte blobs: the adapter never interprets record contents. -/
abbrev Bytes := List Nat

/-- One Redis hash: an association list from field name to stored value. -/
abbrev Hash := List (String × Bytes)

/-- The Redis store: an association list from hash name to hash contents.
A name that is absent behaves as an empty hash, matching Redis, where an
empty hash and a missing key are observationally the same. -/
abbrev Store := List (String × Hash)

/-- Look up a field in a hash. -/
def hashGet : Hash → String → Option Bytes
  | [], _ => none
  | e :: rest, k => if e.1 = k then some e.2 else hashGet rest k

/-- Upsert a field in a hash (HSET field semantics: overwrite-if-exists). -/
def hashSet : Hash → String → Bytes → Hash
  | [], k, v => [(k, v)]
  | e :: rest, k, v => if e.1 = k then (k, v) :: rest else e :: hashSet rest k v

/-- Delete a field from a hash. -/
def hashDel : Hash → String → Hash
  | [], _ => []
  | e :: rest, k => if e.1 = k then hashDel rest k else e :: hashDel rest k

/-- Field-existence test on a hash. -/
def hashHasField (h : Hash) (k : String) : Bool :=
  (hashGet h k).isSome

/-- The contents of the named hash in the store (`[]` when absent). -/
def storeHash : Store → String → Hash
  | [], _ => []
  | e :: rest, n => if e.1 = n then e.2 else storeHash rest n

/-- Rewrite the named hash through `f`, creating it when absent. -/
def storeUpdate : Store → String → (Hash → Hash) → Store
  | [], n, f => [(n, f [])]
  | e :: rest, n, f => if e.1 = n then (n, f e.2) :: rest else e :: storeUpdate rest n f

/-- Remove the named hash from the store entirely (DEL). -/
def storeRemove : Store → String → Store
  | [], _ => []
  | e :: rest, n => if e.1 = n then storeRemove rest n else e :: storeRemove rest n

/-- HSET: upsert one field of the named hash. -/
def storeSet (st : Store) (n k : String) (v : Bytes) : Store :=
  storeUpdate st n (fun h => hashSet h k v)

/-- HDEL: delete one field of the named hash; also yields the count of
fields actually removed (0 when the field was absent). -/
def storeHDel (st : Store) (n k : String) : Store × Nat :=
  (storeUpdate st n (fun h => hashDel h k),
   if hashHasField (storeHash st n) k then 1 else 0)

/-- DEL: delete the named hash; yields 1 when it existed, else 0. -/
def storeDel (st : Store) (n : String) : Store × Nat :=
  (storeRemove st n, if (storeHash st n).isEmpty then 0 else 1)

/-- A live Redis connection.  `failing` models a connection whose next
store operation reports a transport-level error instead of an answer. -/
structure Connection where
  failing : Bool
deriving Repr, DecidableEq

/-- The single persistence-layer error kind (`mqtt::PersistenceError`):
the upstream contract surfaces every failure as this one error. -/
abbrev MqttResult (α : Type) := Except Unit α

/-- Modelled from the spec: the RedisResult of a store command — either
the command's answer, or a single error covering network and protocol
failures alike. -/
abbrev RedisResult (α : Type) := Except Unit α

/-- Modelled from the spec: HGET of one field over a connection.  A nil
reply (absent field, or absent hash) does not convert to a byte buffer,
so absence of the key yields the same RedisResult error as a transport
failure — the two are collapsed at this layer. -/
def redisHGet (c : Connection) (st : Store) (n k : String) : RedisResult Bytes :=
  if c.failing then .error () else
    match hashGet (storeHash st n) k with
    | some v => .ok v
    | none => .error ()

/-- Modelled from the spec: HSET of one field over a connection. -/
def redisHSet (c : Connection) (st : Store) (n k : String) (v : Bytes) :
    RedisResult Store :=
  if c.failing then .error () else .ok (storeSet st n k v)

/-- Modelled from the spec: HDEL of one field over a connection, returning
the updated store and the number of fields removed. -/
def redisHDel (c : Connection) (st : Store) (n k : String) :
    RedisResult (Store × Nat) :=
  if c.failing then .error () else .ok (storeHDel st n k)

/-- Modelled from the spec: HKEYS over a connection — all field names of
the named hash; an absent hash yields the empty sequence, not an error. -/
def redisHKeys (c : Connection) (st : Store) (n : String) :
    RedisResult (List String) :=
  if c.failing then .error () else .ok ((storeHash st n).map (fun e => e.1))

/-- Modelled from the spec: DEL of the whole named hash over a connection,
returning the updated store and the delete count (0 when it was absent). -/
def redisDel (c : Connection) (st : Store) (n : String) :
    RedisResult (Store × Nat) :=
  if c.failing then .error () else .ok (storeDel st n)

/-- Modelled from the spec: HEXISTS of one field over a connection,
returning 1 when the field exists and 0 otherwise (a `usize` in the code). -/
def redisHExists (c : Connection) (st : Store) (n k : String) :
    RedisResult Nat :=
  if c.failing then .error () else
    .ok (if hashHasField (storeHash st n) k then 1 else 0)

/-- Modelled from the spec: `redis::cmd("HSET")...execute(conn)` — issue
the command and discard its reply.  The redis API's `execute` unwraps the
RedisResult, so a store-side error does not return to the caller at all;
`none` models that aborted (panicking) outcome. -/
def cmdExecuteHSet (c : Connection) (st : Store) (n k : String) (v : Bytes) :
    Option Store :=
  match redisHSet c st n k v with
  | .ok st' => some st'
  | .error _ => none

/-- The adapter state, from `struct RedisPersistence`:
the Redis hash name, the Redis client (an opaque connection factory,
fixed at construction), and the optional live connection. -/
structure RedisPersistence where
  name : String
  client : Nat
  conn : Option Connection
deriving Repr, DecidableEq

/-- The partition identifier computed by `open`:
`format!("\x7b\x7d:\x7b\x7d", client_id, server_uri)`. -/
def mkName (client_id server_uri : String) : String :=
  client_id ++ ":" ++ server_uri

namespace RedisPersistence

/-- Method `open` from `src/lib.rs` (named `openOp` because `open` is reserved):
first overwrite `self.name`, then attempt `self.client.get_connection()`,
whose outcome is the parameter `r`.  On success store the connection and
return Ok; on failure return a persistence error, leaving `conn` as it was. -/
def openOp (p : RedisPersistence) (client_id server_uri : String)
    (r : RedisResult Connection) : RedisPersistence × MqttResult Unit :=
  let p' := { p with name := mkName client_id server_uri }
  match r with
  | .ok c => ({ p' with conn := some c }, .ok ())
  | .error _ => (p', .error ())

/-- Method `close` from `src/lib.rs`: take and drop the connection, if any;
always succeeds. -/
def close (p : RedisPersistence) : RedisPersistence × MqttResult Unit :=
  ({ p with conn := none }, .ok ())

/-- Method `put` from `src/lib.rs`: with no connection, fail with a persistence
error; otherwise concatenate the buffers in order and issue HSET through
`execute`, then return Ok.  `none` models the panic inside `execute` when
the store command errors — `put` has no error return after the connection
check. -/
def put (p : RedisPersistence) (st : Store) (key : String)
    (buffers : List Bytes) : Option (RedisPersistence × Store × MqttResult Unit) :=
  match p.conn with
  | none => some (p, st, .error ())
  | some c =>
    let buf : Bytes := buffers.flatten
    match cmdExecuteHSet c st p.name key buf with
    | some st' => some (p, st', .ok ())
    | none => none

/-- Method `get` from `src/lib.rs`: with no connection, fail; otherwise HGET the
field and return its bytes, mapping any RedisResult error to the
persistence error. -/
def get (p : RedisPersistence) (st : Store) (key : String) :
    RedisPersistence × MqttResult Bytes :=
  match p.conn with
  | none => (p, .error ())
  | some c =>
    match redisHGet c st p.name key with
    | .ok v => (p, .ok v)
    | .error _ => (p, .error ())

/-- Method `remove` from `src/lib.rs`: with no connection, fail; otherwise HDEL
the field and report success whether or not the field existed (idempotent
delete); fail only when the store command errors. -/
def remove (p : RedisPersistence) (st : Store) (key : String) :
    RedisPersistence × Store × MqttResult Unit :=
  match p.conn with
  | none => (p, st, .error ())
  | some c =>
    match redisHDel c st p.name key with
    | .ok (st', _res) => (p, st', .ok ())
    | .error _ => (p, st, .error ())

/-- Method `keys` from `src/lib.rs`: with no connection, fail; otherwise HKEYS of
the partition hash. -/
def keys (p : RedisPersistence) (st : Store) :
    RedisPersistence × MqttResult (List String) :=
  match p.conn with
  | none => (p, .error ())
  | some c =>
    match redisHKeys c st p.name with
    | .ok v => (p, .ok v)
    | .error _ => (p, .error ())

/-- Method `clear` from `src/lib.rs`: `self.conn.as_mut().unwrap()` — with no
connection this is a panic on `None`, modelled as `none`; otherwise DEL
the whole partition hash and report success for any delete count, failing
only when the store command errors. -/
def clear (p : RedisPersistence) (st : Store) :
    Option (RedisPersistence × Store × MqttResult Unit) :=
  match p.conn with
  | none => none
  | some c =>
    match redisDel c st p.name with
    | .ok (st', _res) => some (p, st', .ok ())
    | .error _ => some (p, st, .error ())

/-- Method `contains_key` from `src/lib.rs`: with no connection return `false`;
otherwise HEXISTS, returning `res != 0` on success and `false` on any
store-command error.  The operation has no error channel at all. -/
def contains_key (p : RedisPersistence) (st : Store) (key : String) :
    RedisPersistence × Bool :=
  match p.conn with
  | none => (p, false)
  | some c =>
    match redisHExists c st p.name key with
    | .ok res => (p, res != 0)
    | .error _ => (p, false)

end RedisPersistence

/-! Lemmas about the modelled store. -/

theorem storeHash_storeUpdate_self (st : Store) (n : String) (f : Hash → Hash) :
    storeHash (storeUpdate st n f) n = f (storeHash st n) := by
  induction st with
  | nil => simp [storeUpdate, storeHash]
  | cons e rest ih =>
    by_cases h : e.1 = n
    · simp [storeUpdate, storeHash, h]
    · simp [storeUpdate, storeHash, h, ih]

theorem storeHash_storeUpdate_other (st : Store) (n n' : String) (f : Hash → Hash)
    (h : n' ≠ n) : storeHash (storeUpdate st n f) n' = storeHash st n' := by
  induction st with
  | nil => simp [storeUpdate, storeHash, Ne.symm h]
  | cons e rest ih =>
    by_cases he : e.1 = n
    · subst he
      simp [storeUpdate, storeHash, Ne.symm h]
    · by_cases he' : e.1 = n' <;>
        simp [storeUpdate, storeHash, he, he', ih, h, Ne.symm h]

theorem storeHash_storeRemove_self (st : Store) (n : String) :
    storeHash (storeRemove st n) n = [] := by
  induction st with
  | nil => simp [storeRemove, storeHash]
  | cons e rest ih =>
    by_cases h : e.1 = n <;> simp [storeRemove, storeHash, h, ih]

theorem hashGet_hashSet_self (h : Hash) (k : String) (v : Bytes) :
    hashGet (hashSet h k v) k = some v := by
  induction h with
  | nil => simp [hashSet, hashGet]
  | cons e rest ih =>
    by_cases he : e.1 = k <;> simp [hashSet, hashGet, he, ih]

theorem hashGet_hashDel_self (h : Hash) (k : String) :
    hashGet (hashDel h k) k = none := by
  induction h with
  | nil => simp [hashDel, hashGet]
  | cons e rest ih =>
    by_cases he : e.1 = k <;> simp [hashDel, hashGet, he, ih]

/-- In a list split by an occurrence of `sep` that appears in neither
left part, the left parts agree. -/
theorem left_of_append_sep {l1 r1 l2 r2 : List Char} (sep : Char)
    (h1 : sep ∉ l1) (h2 : sep ∉ l2)
    (heq : l1 ++ sep :: r1 = l2 ++ sep :: r2) : l1 = l2 := by
  induction l1 generalizing l2 with
  | nil =>
    cases l2 with
    | nil => rfl
    | cons b t =>
      simp only [List.nil_append, List.cons_append, List.cons.injEq] at heq
      exact absurd (heq.1 ▸ List.mem_cons_self b t) (heq.1 ▸ h2)
  | cons a t ih =>
    cases l2 with
    | nil =>
      simp only [List.nil_append, List.cons_append, List.cons.injEq] at heq
      exact absurd (heq.1 ▸ List.mem_cons_self a t) (heq.1 ▸ h1)
    | cons b t2 =>
      simp only [List.cons_append, List.cons.injEq] at heq
      have ht := ih (fun hm => h1 (List.mem_cons_of_mem a hm))
        (fun hm => h2 (List.mem_cons_of_mem b hm)) heq.2
      rw [heq.1, ht]

/-- Partition identifiers built from colon-free client ids agree only when
the client ids agree. -/
theorem mkName_client_inj (c1 u1 c2 u2 : String)
    (h1 : (':' : Char) ∉ c1.data) (h2 : (':' : Char) ∉ c2.data)
    (heq : mkName c1 u1 = mkName c2 u2) : c1 = c2 := by
  have hd : c1.data ++ ':' :: u1.data = c2.data ++ ':' :: u2.data := by
    have h := congrArg String.data heq
    simpa [mkName, String.data_append] using h
  exact String.ext (left_of_append_sep ':' h1 h2 hd)

/-! Claim theorems. -/

/-- Claim C1: evaluating every record operation on an adapter with no live
connection.  `put`, `get`, `remove` and `keys` return the persistence
error and `contains_key` returns `false`, as the claim states — but
`clear` calls `unwrap()` on the absent connection and panics (`none`)
instead of returning a persistence error, contradicting the claim and the
code's own stated intent (its `TODO: Check for error?` comment). -/
theorem c1_closed_adapter_record_ops :
    RedisPersistence.clear ⟨"cid:uri", 0, none⟩ [] = none ∧
    RedisPersistence.put ⟨"cid:uri", 0, none⟩ [] "k" [[1]] =
      some (⟨"cid:uri", 0, none⟩, [], .error ()) ∧
    (RedisPersistence.get ⟨"cid:uri", 0, none⟩ [] "k").2 = .error () ∧
    (RedisPersistence.remove ⟨"cid:uri", 0, none⟩ [] "k").2.2 = .error () ∧
    (RedisPersistence.keys ⟨"cid:uri", 0, none⟩ []).2 = .error () ∧
    (RedisPersistence.contains_key ⟨"cid:uri", 0, none⟩ [] "k").2 = false :=
  ⟨rfl, rfl, rfl, rfl, rfl, rfl⟩

/-- Claim C2: with a live connection, `get` of a key absent from the partition
returns the persistence error, and a `get` over a connection whose store
operation fails at the transport level returns the very same result — at
this layer absence and transport failure are the one error kind. -/
theorem c2_get_absent_error_eq_transport_error
    (p : RedisPersistence) (st : Store) (key : String) (c : Connection)
    (hc : p.conn = some c) (hok : c.failing = false)
    (habs : hashGet (storeHash st p.name) key = none)
    (pf : RedisPersistence) (stf : Store) (keyf : String) (cf : Connection)
    (hcf : pf.conn = some cf) (hfail : cf.failing = true) :
    (p.get st key).2 = .error () ∧ (pf.get stf keyf).2 = (p.get st key).2 := by
  constructor
  · simp [RedisPersistence.get, hc, redisHGet, hok, habs]
  · simp [RedisPersistence.get, hc, hcf, redisHGet, hok, hfail, habs]

/-- Witness for C2 at a concrete closed instance. -/
theorem c2_get_absent_error_eq_transport_error_witness :
    ((⟨"n", 0, some ⟨false⟩⟩ : RedisPersistence).get [] "k").2 = .error () ∧
    ((⟨"n", 0, some ⟨true⟩⟩ : RedisPersistence).get [] "k").2 =
      ((⟨"n", 0, some ⟨false⟩⟩ : RedisPersistence).get [] "k").2 :=
  c2_get_absent_error_eq_transport_error ⟨"n", 0, some ⟨false⟩⟩ [] "k" ⟨false⟩
    rfl rfl rfl ⟨"n", 0, some ⟨true⟩⟩ [] "k" ⟨true⟩ rfl rfl

/-- Counterexample to claim C3: with a live connection whose store-side HSET
errors, `put` does not return a persistence error — the discarded
RedisResult is unwrapped inside `execute` and the call never returns a
value at all (`none`), so the claim's error-propagation clause is false. -/
theorem c3_put_store_error_counterexample :
    RedisPersistence.put ⟨"n", 0, some ⟨true⟩⟩ [] "k" [[1]] = none := rfl

/-- Claim C3 as amended: `put` returns the persistence error exactly when no
connection is open; with a live connection it returns success exactly when
the store accepted the write, and a store-side HSET error is not surfaced
as a persistence error (the call does not return normally). -/
theorem c3_put_error_only_when_closed
    (p : RedisPersistence) (st : Store) (key : String) (buffers : List Bytes) :
    (p.conn = none → p.put st key buffers = some (p, st, .error ())) ∧
    (∀ c, p.conn = some c → c.failing = false →
      p.put st key buffers =
        some (p, storeSet st p.name key buffers.flatten, .ok ())) ∧
    (∀ c, p.conn = some c → c.failing = true → p.put st key buffers = none) := by
  refine ⟨fun h => ?_, fun c hc hok => ?_, fun c hc hfail => ?_⟩
  · simp [RedisPersistence.put, h]
  · simp [RedisPersistence.put, hc, cmdExecuteHSet, redisHSet, hok]
  · simp [RedisPersistence.put, hc, cmdExecuteHSet, redisHSet, hfail]

/-- Witness for the amended C3 at a concrete closed instance. -/
theorem c3_put_error_only_when_closed_witness :
    RedisPersistence.put ⟨"n", 0, none⟩ [] "k" [[1]] =
      some (⟨"n", 0, none⟩, [], .error ()) :=
  (c3_put_error_only_when_closed ⟨"n", 0, none⟩ [] "k" [[1]]).1 rfl

/-- Claim C9: when connection acquisition fails during `open`, the connection
field is exactly what it was before the call (a live connection is
retained), while the partition name has already been overwritten with the
new `client_id:server_uri` string; the call reports the persistence
error. -/
theorem c9_open_failure_keeps_conn_overwrites_name
    (p : RedisPersistence) (client_id server_uri : String) :
    (p.openOp client_id server_uri (.error ())).1.conn = p.conn ∧
    (p.openOp client_id server_uri (.error ())).1.name = mkName client_id server_uri ∧
    (p.openOp client_id server_uri (.error ())).1.client = p.client ∧
    (p.openOp client_id server_uri (.error ())).2 = .error () :=
  ⟨rfl, rfl, rfl, rfl⟩

/-- Counterexample to claim C4: the client ids `"a"` and `"a:b"` differ, yet with
server uris `"b:c"` and `"c"` both adapters compute the same partition
identifier `"a:b:c"` (the `:` separator can be injected), and after one
instance `put`s a record, `keys` on the other instance reports it. -/
theorem c4_partition_collision_counterexample :
    ("a" : String) ≠ "a:b" ∧
    mkName "a" "b:c" = mkName "a:b" "c" ∧
    RedisPersistence.put ⟨mkName "a" "b:c", 0, some ⟨false⟩⟩ [] "m1" [[7]] =
      some (⟨mkName "a" "b:c", 0, some ⟨false⟩⟩,
        storeSet [] "a:b:c" "m1" [7], .ok ()) ∧
    (RedisPersistence.keys ⟨mkName "a:b" "c", 0, some ⟨false⟩⟩
        (storeSet [] "a:b:c" "m1" [7])).2 = .ok ["m1"] :=
  ⟨by decide, rfl, rfl, rfl⟩

/-- Claim C4 as amended: provided the client ids contain no occurrence of the
`:` separator, two instances opened with different client ids compute
distinct partition identifiers, and a record written by `put` on one
instance never changes what `keys` on the other instance observes. -/
theorem c4_distinct_clients_distinct_partitions
    (c1 u1 c2 u2 : String) (hne : c1 ≠ c2)
    (h1 : (':' : Char) ∉ c1.data) (h2 : (':' : Char) ∉ c2.data)
    (p1 p2 : RedisPersistence)
    (hn1 : p1.name = mkName c1 u1) (hn2 : p2.name = mkName c2 u2)
    (st : Store) (key : String) (buffers : List Bytes) :
    mkName c1 u1 ≠ mkName c2 u2 ∧
    (∀ q st' r, p1.put st key buffers = some (q, st', r) →
      p2.keys st' = p2.keys st) := by
  have hname : mkName c1 u1 ≠ mkName c2 u2 :=
    fun h => hne (mkName_client_inj c1 u1 c2 u2 h1 h2 h)
  refine ⟨hname, fun q st' r hput => ?_⟩
  have hsame : storeHash st' p2.name = storeHash st p2.name := by
    cases hc : p1.conn with
    | none =>
      simp [RedisPersistence.put, hc] at hput
      rw [← hput.2.1]
    | some c =>
      cases hf : c.failing with
      | true => simp [RedisPersistence.put, hc, cmdExecuteHSet, redisHSet, hf] at hput
      | false =>
        simp [RedisPersistence.put, hc, cmdExecuteHSet, redisHSet, hf] at hput
        rw [← hput.2.1, storeSet, storeHash_storeUpdate_other]
        rw [hn1, hn2]
        exact Ne.symm hname
  cases hc2 : p2.conn with
  | none => simp [RedisPersistence.keys, hc2]
  | some c2 =>
    cases hf2 : c2.failing with
    | true => simp [RedisPersistence.keys, hc2, redisHKeys, hf2]
    | false => simp [RedisPersistence.keys, hc2, redisHKeys, hf2, hsame]

/-- Witness for the amended C4 at a concrete closed instance. -/
theorem c4_distinct_clients_distinct_partitions_witness :
    mkName "a" "u" ≠ mkName "b" "u" :=
  (c4_distinct_clients_distinct_partitions "a" "u" "b" "u" (by decide)
    (by decide) (by decide)
    ⟨mkName "a" "u", 0, some ⟨false⟩⟩ ⟨mkName "b" "u", 0, some ⟨false⟩⟩ rfl rfl
    [] "m1" [[1]]).1

/-- Claim C5: whenever `put(key, buffers)` on a live connection returns success,
`get(key)` against the resulting store succeeds and returns exactly the
in-order concatenation of the buffers, byte for byte. -/
theorem c5_put_get_returns_concatenation
    (p q : RedisPersistence) (st st' : Store) (key : String)
    (buffers : List Bytes)
    (hput : p.put st key buffers = some (q, st', .ok ())) :
    p.get st' key = (p, .ok buffers.flatten) := by
  cases hc : p.conn with
  | none => simp [RedisPersistence.put, hc] at hput
  | some c =>
    cases hf : c.failing with
    | true => simp [RedisPersistence.put, hc, cmdExecuteHSet, redisHSet, hf] at hput
    | false =>
      simp [RedisPersistence.put, hc, cmdExecuteHSet, redisHSet, hf] at hput
      have hst : st' = storeSet st p.name key buffers.flatten := hput.2.symm
      subst hst
      simp [RedisPersistence.get, hc, redisHGet, hf, storeSet,
        storeHash_storeUpdate_self, hashGet_hashSet_self]

/-- Witness for C5 at a concrete closed instance. -/
theorem c5_put_get_returns_concatenation_witness :
    (⟨"n", 0, some ⟨false⟩⟩ : RedisPersistence).get
        (storeSet [] "n" "k" [1, 2, 3]) "k" =
      (⟨"n", 0, some ⟨false⟩⟩, .ok [1, 2, 3]) :=
  c5_put_get_returns_concatenation ⟨"n", 0, some ⟨false⟩⟩ ⟨"n", 0, some ⟨false⟩⟩
    [] (storeSet [] "n" "k" [1, 2, 3]) "k" [[1], [2, 3]] rfl

/-- Claim C6: with a live connection, `clear` returns success on any store —
whether or not the partition existed or held records (a delete count of
zero is not an error) — and `keys` against the resulting store returns
the empty sequence. -/
theorem c6_clear_succeeds_then_keys_empty
    (p : RedisPersistence) (st : Store) (c : Connection)
    (hc : p.conn = some c) (hok : c.failing = false) :
    p.clear st = some (p, (storeDel st p.name).1, .ok ()) ∧
    (p.keys (storeDel st p.name).1).2 = .ok [] := by
  constructor
  · simp [RedisPersistence.clear, hc, redisDel, hok]
  · simp [RedisPersistence.keys, hc, redisHKeys, hok, storeDel,
      storeHash_storeRemove_self]

/-- Witness for C6 at a concrete populated partition. -/
theorem c6_clear_succeeds_then_keys_empty_witness :
    (⟨"n", 0, some ⟨false⟩⟩ : RedisPersistence).clear [("n", [("k", [1])])] =
      some (⟨"n", 0, some ⟨false⟩⟩,
        (storeDel [("n", [("k", [1])])] "n").1, .ok ()) ∧
    ((⟨"n", 0, some ⟨false⟩⟩ : RedisPersistence).keys
        (storeDel [("n", [("k", [1])])] "n").1).2 = .ok [] :=
  c6_clear_succeeds_then_keys_empty ⟨"n", 0, some ⟨false⟩⟩
    [("n", [("k", [1])])] ⟨false⟩ rfl rfl

/-- Claim C7: with a live connection whose store operation succeeds, `remove`
returns success on any store — whether the key was present (it is deleted:
the field is absent afterwards) or absent (idempotent delete) — and it
returns a persistence error exactly when the store operation itself
fails. -/
theorem c7_remove_idempotent_success
    (p : RedisPersistence) (st : Store) (key : String) (c : Connection)
    (hc : p.conn = some c) :
    (c.failing = false →
      p.remove st key = (p, (storeHDel st p.name key).1, .ok ()) ∧
      hashGet (storeHash (storeHDel st p.name key).1 p.name) key = none) ∧
    (c.failing = true → p.remove st key = (p, st, .error ())) := by
  constructor
  · intro hok
    constructor
    · simp [RedisPersistence.remove, hc, redisHDel, hok]
    · simp [storeHDel, storeHash_storeUpdate_self, hashGet_hashDel_self]
  · intro hfail
    simp [RedisPersistence.remove, hc, redisHDel, hfail]

/-- Witness for C7 at a concrete instance holding the key. -/
theorem c7_remove_idempotent_success_witness :
    (⟨"n", 0, some ⟨false⟩⟩ : RedisPersistence).remove [("n", [("k", [1])])] "k" =
      (⟨"n", 0, some ⟨false⟩⟩, (storeHDel [("n", [("k", [1])])] "n" "k").1, .ok ()) ∧
    hashGet (storeHash (storeHDel [("n", [("k", [1])])] "n" "k").1 "n") "k" = none :=
  (c7_remove_idempotent_success ⟨"n", 0, some ⟨false⟩⟩ [("n", [("k", [1])])] "k"
    ⟨false⟩ rfl).1 rfl

/-- Claim C8: `contains_key` has no error channel — it is a total boolean
observation.  It returns `false` when no connection is open and when the
store call itself fails, and with a healthy live connection it returns
exactly the store's field-existence answer. -/
theorem c8_contains_key_never_errors
    (p : RedisPersistence) (st : Store) (key : String) :
    (p.conn = none → p.contains_key st key = (p, false)) ∧
    (∀ c, p.conn = some c → c.failing = true → p.contains_key st key = (p, false)) ∧
    (∀ c, p.conn = some c → c.failing = false →
      p.contains_key st key = (p, hashHasField (storeHash st p.name) key)) := by
  refine ⟨fun h => ?_, fun c hc hfail => ?_, fun c hc hok => ?_⟩
  · simp [RedisPersistence.contains_key, h]
  · simp [RedisPersistence.contains_key, hc, redisHExists, hfail]
  · cases hf : hashHasField (storeHash st p.name) key <;>
      simp [RedisPersistence.contains_key, hc, redisHExists, hok, hf]

/-- Witness for C8 at a concrete instance holding the key. -/
theorem c8_contains_key_never_errors_witness :
    (⟨"n", 0, some ⟨false⟩⟩ : RedisPersistence).contains_key
        [("n", [("k", [1])])] "k" =
      (⟨"n", 0, some ⟨false⟩⟩, true) :=
  (c8_contains_key_never_errors ⟨"n", 0, some ⟨false⟩⟩ [("n", [("k", [1])])]
    "k").2.2 ⟨false⟩ rfl rfl

theorem frame_put (p q : RedisPersistence) (st st' : Store) (key : String)
    (buffers : List Bytes) (r : MqttResult Unit)
    (h : p.put st key buffers = some (q, st', r)) : q = p := by
  cases hc : p.conn with
  | none =>
    simp [RedisPersistence.put, hc] at h
    exact h.1.symm
  | some c =>
    cases hf : c.failing with
    | true => simp [RedisPersistence.put, hc, cmdExecuteHSet, redisHSet, hf] at h
    | false =>
      simp [RedisPersistence.put, hc, cmdExecuteHSet, redisHSet, hf] at h
      exact h.1.symm

theorem frame_get (p : RedisPersistence) (st : Store) (key : String) :
    (p.get st key).1 = p := by
  cases hc : p.conn with
  | none => simp [RedisPersistence.get, hc]
  | some c =>
    cases hr : redisHGet c st p.name key <;> simp [RedisPersistence.get, hc, hr]

theorem frame_remove (p : RedisPersistence) (st : Store) (key : String) :
    (p.remove st key).1 = p := by
  cases hc : p.conn with
  | none => simp [RedisPersistence.remove, hc]
  | some c =>
    cases hr : redisHDel c st p.name key with
    | ok v =>
      obtain ⟨st', res⟩ := v
      simp [RedisPersistence.remove, hc, hr]
    | error e => simp [RedisPersistence.remove, hc, hr]

theorem frame_keys (p : RedisPersistence) (st : Store) :
    (p.keys st).1 = p := by
  cases hc : p.conn with
  | none => simp [RedisPersistence.keys, hc]
  | some c =>
    cases hr : redisHKeys c st p.name <;> simp [RedisPersistence.keys, hc, hr]

theorem frame_clear (p q : RedisPersistence) (st st' : Store) (r : MqttResult Unit)
    (h : p.clear st = some (q, st', r)) : q = p := by
  cases hc : p.conn with
  | none => simp [RedisPersistence.clear, hc] at h
  | some c =>
    cases hr : redisDel c st p.name with
    | ok v =>
      obtain ⟨st'', res⟩ := v
      simp [RedisPersistence.clear, hc, hr] at h
      exact h.1.symm
    | error e =>
      simp [RedisPersistence.clear, hc, hr] at h
      exact h.1.symm

theorem frame_contains_key (p : RedisPersistence) (st : Store) (key : String) :
    (p.contains_key st key).1 = p := by
  cases hc : p.conn with
  | none => simp [RedisPersistence.contains_key, hc]
  | some c =>
    cases hr : redisHExists c st p.name key <;>
      simp [RedisPersistence.contains_key, hc, hr]

/-- Claim C10: every record operation returns the adapter fields — partition
name, client factory handle and connection presence — exactly as they
were handed in; only `open` and `close` ever modify adapter state. -/
theorem c10_record_ops_preserve_adapter_state
    (p : RedisPersistence) (st : Store) (key : String) (buffers : List Bytes) :
    (∀ q st' r, p.put st key buffers = some (q, st', r) → q = p) ∧
    (p.get st key).1 = p ∧
    (p.remove st key).1 = p ∧
    (p.keys st).1 = p ∧
    (∀ q st' r, p.clear st = some (q, st', r) → q = p) ∧
    (p.contains_key st key).1 = p :=
  ⟨fun q st' r h => frame_put p q st st' key buffers r h,
   frame_get p st key,
   frame_remove p st key,
   frame_keys p st,
   fun q st' r h => frame_clear p q st st' r h,
   frame_contains_key p st key⟩

/-- Witness for C10, discharging the `put` success hypothesis at a
concrete live instance. -/
theorem c10_record_ops_preserve_adapter_state_witness :
    (⟨"n", 0, some ⟨false⟩⟩ : RedisPersistence) = ⟨"n", 0, some ⟨false⟩⟩ :=
  (c10_record_ops_preserve_adapter_state ⟨"n", 0, some ⟨false⟩⟩ [] "k" [[1]]).1
    ⟨"n", 0, some ⟨false⟩⟩ (storeSet [] "n" "k" [1]) (.ok ()) rfl

end MqttRedis
